import Mathlib

/-!
Verification of the dataset-adapter ETL repository.

The Python sources are shallowly embedded as executable Lean definitions:

* `auto_data_adapter.py` — `DatasetAdapter.COLUMN_MAPPINGS`,
  `detect_dataset_type`, `map_columns`, `generate_staging_sql`;
* `integrate_new_dataset.py` — `PipelineIntegrator._update_raw_sources_config`
  and `_update_staging_yml` as pure state-to-state functions;
* `clean_vehicle_loans.py` / `load_raw_to_bq.py` — the header sanitization
  routines as functions on the list of CSV rows.

File contents such as YAML documents are modelled as the values they parse
to; a missing file is `Option.none`.  Strings use the character-list model,
and Python `str.lower` / `in` (substring) / `str.replace` are embedded as
character-level functions below.
-/

/-- Model of Python `str.lower` (character-wise lowercasing; all column
names involved are ASCII). -/
def pyLower (s : String) : String := String.mk (s.data.map Char.toLower)

/-- Model of the Python substring test `pat in s` on character lists
(`containsSub pat s` is true iff `pat` occurs contiguously in `s`). -/
def containsSub (pat : List Char) : List Char → Bool
  | [] => pat.isEmpty
  | c :: t => pat.isPrefixOf (c :: t) || containsSub pat t

/-- Model of Python `str.replace` for a nonempty pattern `p :: ps`:
at each position, if the pattern is a prefix, emit the replacement and skip
the pattern, otherwise keep the character.  (`auto` scans left to right,
exactly as CPython does for nonempty patterns.) -/
def pyReplaceAux (p : Char) (ps rep : List Char) : List Char → List Char
  | [] => []
  | c :: cs =>
    if (p :: ps).isPrefixOf (c :: cs) then
      rep ++ pyReplaceAux p ps rep (cs.drop ps.length)
    else
      c :: pyReplaceAux p ps rep cs
termination_by s => s.length
decreasing_by
  · simp only [List.length_drop, List.length_cons]
    omega
  · simp

/-- Model of Python `s.replace(pat, rep)`.  The sources only call it with
the nonempty pattern `"."`; the empty-pattern case (which CPython treats
specially) is modelled as the identity and never used. -/
def pyReplace (pat rep s : List Char) : List Char :=
  match pat with
  | [] => s
  | p :: ps => pyReplaceAux p ps rep s

/-! ## auto_data_adapter.py — `DatasetAdapter` -/

/-- Embedding of `DatasetAdapter.COLUMN_MAPPINGS` (auto_data_adapter.py,
lines 16–47): canonical attribute name paired with its ordered alias list. -/
def COLUMN_MAPPINGS : List (String × List String) := [
  ("loan_id", ["uniqueid", "sk_id_curr", "loan_id", "application_id", "contract_id"]),
  ("customer_id", ["uniqueid", "sk_id_curr", "customer_id", "client_id"]),
  ("loan_amount", ["disbursed_amount", "amt_credit", "loan_amount", "credit_amount"]),
  ("asset_cost", ["asset_cost", "amt_goods_price", "goods_price"]),
  ("application_date", ["disbursaldate", "days_decision", "application_date", "disbursal_date"]),
  ("date_of_birth", ["date_of_birth", "days_birth"]),
  ("loan_default", ["loan_default", "target", "default_flag"]),
  ("employment_type", ["employment_type", "name_income_type", "occupation_type"]),
  ("gender", ["code_gender", "gender"]),
  ("state_id", ["state_id", "region_rating_client"]),
  ("branch_id", ["branch_id", "dealer_id"]),
  ("pincode_id", ["current_pincode_id", "region_population_relative"]),
  ("product_id", ["manufacturer_id", "product_id", "name_contract_type"]),
  ("credit_score", ["perform_cns_score", "ext_source_1", "ext_source_2", "ext_source_3"]),
  ("ltv_ratio", ["ltv", "amt_credit_sum_debt"])]

/-- Embedding of `DatasetAdapter.detect_dataset_type` (lines 55–68): lower
the header, then test the signature columns in fixed priority order. -/
def detect_dataset_type (header : List String) : String :=
  let columns_lower := header.map pyLower
  if columns_lower.contains "sk_id_curr" then "home_credit"
  else if columns_lower.contains "uniqueid" && columns_lower.contains "disbursaldate" then
    "vehicle_loan"
  else "generic"

/-- Embedding of the dict comprehension
`columns_lower = {col.lower(): col for col in self.df.columns}` followed by
`columns_lower[key]`: the value stored under a lowered key is the LAST
header column lowering to it (later dict entries overwrite earlier ones);
absence of the key is `none`. -/
def lookupOrig (header : List String) (key : String) : Option String :=
  header.reverse.find? (fun c => pyLower c == key)

/-- Embedding of `DatasetAdapter.map_columns` (lines 70–82), generalized
over the alias table (the Python method reads the class attribute
`self.COLUMN_MAPPINGS`): for each canonical attribute in table order, scan
its alias list and record the first alias present in the header. -/
def mapColumnsOver (table : List (String × List String)) (header : List String) :
    List (String × String) :=
  table.filterMap (fun p =>
    (p.2.findSome? (fun a => lookupOrig header a)).map (fun c => (p.1, c)))

/-- Embedding of `DatasetAdapter.map_columns` applied to the class alias
table `COLUMN_MAPPINGS`. -/
def mapColumns (header : List String) : List (String × String) :=
  mapColumnsOver COLUMN_MAPPINGS header

/-- Embedding of the date-projection branch of `generate_staging_sql`
(lines 112–135; the branch bodies for `application_date` and
`date_of_birth` are identical up to the target name): if the raw column
name contains `"days"` (after lowering), emit the day-offset expression,
otherwise the soft `safe.parse_date` expression with pattern `%d-%m-%y`. -/
def dateExpr (date_col target : String) : String :=
  if containsSub "days".data (pyLower date_col).data then
    "    date_add(current_date(), interval cast(" ++ date_col ++ " as int64) day) as " ++ target
  else
    "    safe.parse_date(\x27%d-%m-%y\x27, cast(" ++ date_col ++ " as string)) as " ++ target

/-- Embedding of the per-attribute projection expression of
`generate_staging_sql` (lines 98–161): date attributes use `dateExpr`,
amount-like attributes cast to `numeric`, the target flag and credit score
cast to `int64`, and identifier/categorical attributes cast to `string`. -/
def exprFor (attr col : String) : String :=
  if attr == "application_date" || attr == "date_of_birth" then
    dateExpr col attr
  else if attr == "loan_amount" || attr == "asset_cost" || attr == "ltv_ratio" then
    "    cast(" ++ col ++ " as numeric) as " ++ attr
  else if attr == "loan_default" || attr == "credit_score" then
    "    cast(" ++ col ++ " as int64) as " ++ attr
  else
    "    cast(" ++ col ++ " as string) as " ++ attr

/-- Order in which `generate_staging_sql` (lines 98–161) checks the
canonical attributes when building `select_cols`. -/
def PROJECTION_ORDER : List String :=
  ["loan_id", "customer_id", "application_date", "date_of_birth", "loan_amount",
   "asset_cost", "ltv_ratio", "employment_type", "gender", "state_id", "branch_id",
   "pincode_id", "product_id", "loan_default", "credit_score"]

/-- Embedding of the `select_cols` list built by `generate_staging_sql`
(lines 98–164): one projection expression per canonical attribute present
in the mapping, in the fixed source order, nothing for absent attributes. -/
def selectCols (m : List (String × String)) : List String :=
  PROJECTION_ORDER.filterMap (fun attr => (m.lookup attr).map (fun col => exprFor attr col))

/-- Embedding of `DatasetAdapter.generate_staging_sql` (lines 84–172): the
full generated staging-model text.  (The `model_name` parameter is unused
by the Python body as well.) -/
def generate_staging_sql (m : List (String × String)) (model_name source_name : String) :
    String :=
  let _ := model_name
  let sql_parts : List String :=
    ["\x7b\x7b config(materialized=\x27view\x27) \x7d\x7d",
     "",
     "with src as (",
     "  select * from \x7b\x7b source(\x27raw\x27, \x27" ++ source_name ++ "\x27) \x7d\x7d",
     "),",
     "",
     "transformed as (",
     "  select"]
  let sql_parts := sql_parts ++ [String.intercalate ",\n" (selectCols m)]
  let sql_parts := sql_parts ++ ["  from src", ")", "", "select * from transformed"]
  String.intercalate "\n" sql_parts

/-! ## clean_vehicle_loans.py and load_raw_to_bq.py — header sanitization -/

/-- Embedding of `clean_header` (clean_vehicle_loans.py, lines 6–26) on the
parsed CSV rows: `none` when there is no header row (Python
`next(reader)` raises), otherwise the header with `.` replaced by `_` in
every column name, followed by the data rows unchanged. -/
def clean_header_rows (rows : List (List String)) : Option (List (List String)) :=
  match rows with
  | [] => none
  | header :: rest =>
    some ((header.map (fun col => String.mk (pyReplace ".".data "_".data col.data))) :: rest)

/-- Embedding of `_sanitize_header` (load_raw_to_bq.py, lines 10–30); its
row transformation is identical to `clean_header`. -/
def sanitize_header_rows (rows : List (List String)) : Option (List (List String)) :=
  match rows with
  | [] => none
  | header :: rest =>
    some ((header.map (fun col => String.mk (pyReplace ".".data "_".data col.data))) :: rest)

/-! ## integrate_new_dataset.py — `PipelineIntegrator` -/

/-- Entry of the `raw_sources` list in `config/raw_sources.yml`
(see `_update_raw_sources_config`, lines 139–146). -/
structure RawSource where
  name : String
  project_id : String
  dataset_id : String
  table_id : String
  csv_path : String
deriving DecidableEq, Repr

/-- Number of registry entries carrying a given logical name. -/
def countName (l : List RawSource) (n : String) : Nat :=
  (l.filter (fun s => s.name == n)).length

/-- Registry entry built by `_update_raw_sources_config` (lines 139–146);
`csv_name` is `csv_path.name`. -/
def newRawSource (source_name csv_name project_id dataset_id : String) : RawSource :=
  { name := source_name, project_id := project_id, dataset_id := dataset_id,
    table_id := source_name, csv_path := "/usr/local/airflow/data/" ++ csv_name }

/-- Embedding of `PipelineIntegrator._update_raw_sources_config`
(lines 113–155) as a pure function from the prior registry state to the
new registry plus a `skipped` flag.  `state = none` models a missing
`raw_sources.yml` (loaded as empty). -/
def update_raw_sources_config (state : Option (List RawSource))
    (source_name csv_name project_id dataset_id : String) : List RawSource × Bool :=
  let config := state.getD []
  let existing_names := config.map (fun s => s.name)
  if existing_names.contains source_name then
    (config, true)
  else
    (config ++ [newRawSource source_name csv_name project_id dataset_id], false)

/-- Source block of `staging.yml` (`sources:` entries).  Every field is
optional because the YAML keys may be absent; `tables` entries are the
values of their `name` key (`none` when an entry lacks one). -/
structure SourceBlock where
  name : Option String
  database : Option String
  schema : Option String
  tables : Option (List (Option String))
deriving DecidableEq, Repr

/-- Model block of `staging.yml` (`models:` entries): a model name and its
column-test entries (column name with test list). -/
structure ModelBlock where
  name : Option String
  columns : List (String × List String)
deriving DecidableEq, Repr

/-- Parsed `staging.yml` document; absent top-level keys are `none`. -/
structure StagingConfig where
  version : Option Nat
  sources : Option (List SourceBlock)
  models : Option (List ModelBlock)
deriving DecidableEq, Repr

/-- Replace the first element satisfying `p` by its image under `f`
(models in-place mutation of the object found by a scan-and-break loop). -/
def replaceFirst (p : α → Bool) (f : α → α) : List α → List α
  | [] => []
  | a :: l => if p a then f a :: l else a :: replaceFirst p f l

/-- Test of the scan `src.get("name") == "raw"` in `_update_staging_yml`. -/
def isRawBlock (s : SourceBlock) : Bool := s.name == some "raw"

/-- Embedding of the `setdefault` calls of `_update_staging_yml`
(lines 207–211): fill `database`, `schema`, `tables` only when absent. -/
def fillDefaults (project_id dataset_id : String) (s : SourceBlock) : SourceBlock :=
  { s with database := some (s.database.getD project_id),
           schema := some (s.schema.getD dataset_id),
           tables := some (s.tables.getD []) }

/-- Embedding of the table registration step of `_update_staging_yml`
(lines 213–219): append `{name: source_name}` to the block's table list
unless an entry with that name is already present. -/
def addTable (s : SourceBlock) (source_name : String) : SourceBlock :=
  let tbls := s.tables.getD []
  if tbls.contains (some source_name) then s
  else { s with tables := some (tbls ++ [some source_name]) }

/-- Embedding of `PipelineIntegrator._update_staging_yml` (lines 157–242)
as a pure function of the prior parsed `staging.yml` (`none` = missing
file, replaced by the skeleton) to the rewritten document. -/
def update_staging_yml (state : Option StagingConfig)
    (source_name project_id dataset_id staging_model_name : String) : StagingConfig :=
  let config := state.getD { version := some 2, sources := some [], models := some [] }
  let version := config.version.getD 2
  let sources := config.sources.getD []
  let models := config.models.getD []
  let sources :=
    match sources.find? isRawBlock with
    | none => sources ++
        [{ name := some "raw", database := some project_id, schema := some dataset_id,
           tables := some [] }]
    | some _ => replaceFirst isRawBlock (fillDefaults project_id dataset_id) sources
  let sources := replaceFirst isRawBlock (fun s => addTable s source_name) sources
  let models :=
    if (models.map (fun m => m.name)).contains (some staging_model_name) then models
    else models ++
      [{ name := some staging_model_name,
         columns := [("loan_id", ["not_null"]), ("customer_id", ["not_null"])] }]
  { version := some version, sources := some sources, models := some models }

/-- Sample manifest source block with manually set connection coordinates
(used to exercise the manifest upsert on concrete data). -/
def sampleRawBlock : SourceBlock :=
  { name := some "raw", database := some "manual_db",
    schema := some "manual_schema", tables := some [] }

/-- Sample manifest holding `sampleRawBlock`. -/
def sampleStagingConfig : StagingConfig :=
  { version := some 2, sources := some [sampleRawBlock], models := some [] }

/-! ## File-rewrite effect model for the config mergers

Both mergers persist their result with `with open(path, "w") as f:`
followed by `yaml.dump(config, f)`.  Opening with mode `"w"` truncates the
file at once; the dump then streams the serialized document into it.  We
model this write path as a two-step effect trace; an execution interrupted
after `k` steps has applied exactly the first `k` effects. -/

/-- One file-system effect of the config-merger write path. -/
inductive FsOp where
  | truncate : FsOp
  | writeAll : String → FsOp
deriving DecidableEq, Repr

/-- Effect trace of `open(path, "w")` + `yaml.dump(config, f)`: truncate,
then write the serialized document. -/
def configWriteOps (content : String) : List FsOp := [FsOp.truncate, FsOp.writeAll content]

/-- Apply an effect trace to the current file content. -/
def runOps (file : String) (ops : List FsOp) : String :=
  ops.foldl (fun acc op => match op with | FsOp.truncate => "" | FsOp.writeAll c => acc ++ c)
    file

/-- All-or-nothing property of a write path: however many leading effects
were applied, the file holds either the original or the final content. -/
def allOrNothing (original : String) (ops : List FsOp) : Prop :=
  ∀ k, runOps original (ops.take k) = original ∨ runOps original (ops.take k) = runOps original ops

/-! ## Helper lemmas -/

/-- Unfolding of `mapColumnsOver` on a cons cell. -/
theorem mapColumnsOver_cons (p : String × List String) (t : List (String × List String))
    (header : List String) :
    mapColumnsOver (p :: t) header =
      match p.2.findSome? (fun a => lookupOrig header a) with
      | none => mapColumnsOver t header
      | some c => (p.1, c) :: mapColumnsOver t header := by
  simp only [mapColumnsOver, List.filterMap_cons]
  cases p.2.findSome? (fun a => lookupOrig header a) <;> rfl

/-- Lookup in a cons association list, matching key. -/
theorem lookup_assoc_cons_self {β : Type} (k : String) (v : β) (l : List (String × β)) :
    List.lookup k ((k, v) :: l) = some v := by
  simp [List.lookup]

/-- Lookup in a cons association list, mismatching key. -/
theorem lookup_assoc_cons_ne {β : Type} (k k' : String) (v : β) (l : List (String × β))
    (h : (k == k') = false) :
    List.lookup k ((k', v) :: l) = List.lookup k l := by
  simp [List.lookup, h]

/-- A canonical attribute absent from the alias table never occurs in the
produced mapping. -/
theorem lookup_mapColumnsOver_of_not_mem (table : List (String × List String))
    (header : List String) (std : String)
    (h : ∀ p ∈ table, p.1 ≠ std) :
    (mapColumnsOver table header).lookup std = none := by
  induction table with
  | nil => rfl
  | cons p t ih =>
    have hp : p.1 ≠ std := h p (List.mem_cons_self _ _)
    have ht : ∀ q ∈ t, q.1 ≠ std := fun q hq => h q (List.mem_cons_of_mem _ hq)
    have hbeq : (std == p.1) = false := by simp [Ne.symm hp]
    rw [mapColumnsOver_cons]
    cases hfs : p.2.findSome? (fun a => lookupOrig header a) with
    | none => exact ih ht
    | some c =>
      show List.lookup std ((p.1, c) :: mapColumnsOver t header) = none
      rw [lookup_assoc_cons_ne std p.1 c _ hbeq]
      exact ih ht

/-- Characterization of `map_columns` over any alias table with distinct
canonical names: the value recorded for an attribute is exactly the first
alias in its list that is present in the header. -/
theorem lookup_mapColumnsOver (table : List (String × List String))
    (header : List String) (std : String) (aliases : List String)
    (hpw : table.Pairwise (fun p q => p.1 ≠ q.1))
    (hmem : (std, aliases) ∈ table) :
    (mapColumnsOver table header).lookup std =
      aliases.findSome? (fun a => lookupOrig header a) := by
  induction table with
  | nil => cases hmem
  | cons p t ih =>
    rcases List.pairwise_cons.mp hpw with ⟨hhead, htail⟩
    rw [mapColumnsOver_cons]
    rcases List.mem_cons.mp hmem with heq | hmem'
    · have hp1 : p.1 = std := by rw [← heq]
      rw [← heq]
      dsimp only
      cases hfs : aliases.findSome? (fun a => lookupOrig header a) with
      | none =>
        show List.lookup std (mapColumnsOver t header) = none
        exact lookup_mapColumnsOver_of_not_mem t header std
          (fun q hq => Ne.symm (hp1 ▸ hhead q hq))
      | some c =>
        show List.lookup std ((std, c) :: mapColumnsOver t header) = some c
        exact lookup_assoc_cons_self std c _
    · have hne : p.1 ≠ std := hhead (std, aliases) hmem'
      have hbeq : (std == p.1) = false := by simp [Ne.symm hne]
      cases hfs : p.2.findSome? (fun a => lookupOrig header a) with
      | none =>
        show List.lookup std (mapColumnsOver t header) = _
        exact ih htail hmem'
      | some c =>
        show List.lookup std ((p.1, c) :: mapColumnsOver t header) = _
        rw [lookup_assoc_cons_ne std p.1 c _ hbeq]
        exact ih htail hmem'

/-- Length of a `filterMap` equals the number of elements on which the
function succeeds. -/
theorem length_filterMap_eq_length_filter (f : α → Option β) (l : List α) :
    (l.filterMap f).length = (l.filter (fun a => (f a).isSome)).length := by
  induction l with
  | nil => rfl
  | cons a t ih =>
    cases h : f a <;> simp [List.filterMap_cons, List.filter_cons, h, ih]

/-- Searching after an in-place update of the first hit finds the updated
element, provided the update preserves the search predicate. -/
theorem find?_replaceFirst (p : α → Bool) (f : α → α) (l : List α)
    (hpres : ∀ a, p a = true → p (f a) = true) :
    (replaceFirst p f l).find? p = (l.find? p).map f := by
  induction l with
  | nil => rfl
  | cons a t ih =>
    by_cases h : p a = true
    · simp [replaceFirst, h, List.find?_cons_of_pos, hpres a h]
    · have h' : p a = false := by simpa using h
      simp [replaceFirst, h', List.find?_cons_of_neg, ih]

/-- Membership of a logical name among registry names, counted. -/
theorem contains_name_iff (l : List RawSource) (n : String) :
    ((l.map (fun s => s.name)).contains n = true) ↔ 0 < countName l n := by
  induction l with
  | nil => simp [countName]
  | cons a t ih =>
    by_cases h : a.name = n
    · simp [countName, List.filter_cons, h]
    · have h1 : (n == a.name) = false := by simp [Ne.symm h]
      have h2 : (a.name == n) = false := by simp [h]
      simp only [List.map_cons, List.contains_cons, h1, Bool.false_or, countName,
        List.filter_cons, h2, Bool.false_eq_true, if_false]
      exact ih

/-- Count of a name distributes over registry concatenation. -/
theorem countName_append (l1 l2 : List RawSource) (n : String) :
    countName (l1 ++ l2) n = countName l1 n + countName l2 n := by
  simp [countName, List.filter_append]

/-- Count of a name in a one-entry registry carrying that name. -/
theorem countName_singleton_self (r : RawSource) (n : String) (h : r.name = n) :
    countName [r] n = 1 := by
  simp [countName, List.filter, h]

/-- Behavior of the registry upsert when the name is already present:
skip, leaving the registry unchanged. -/
theorem upsert_present (st : List RawSource) (sn cn pid did : String)
    (hmem : (st.map (fun s => s.name)).contains sn = true) :
    update_raw_sources_config (some st) sn cn pid did = (st, true) := by
  simp only [update_raw_sources_config, Option.getD_some]
  rw [hmem]
  simp

/-- Behavior of the registry upsert when the name is absent: append the
freshly built record. -/
theorem upsert_absent (st : List RawSource) (sn cn pid did : String)
    (hmem : (st.map (fun s => s.name)).contains sn = false) :
    update_raw_sources_config (some st) sn cn pid did =
      (st ++ [newRawSource sn cn pid did], false) := by
  simp only [update_raw_sources_config, Option.getD_some]
  rw [hmem]
  simp

/-- Presence of a matching header column makes `lookupOrig` succeed. -/
theorem lookupOrig_isSome_of_mem (header : List String) (k c : String)
    (hc : c ∈ header) (hk : pyLower c = k) : (lookupOrig header k).isSome = true := by
  rw [lookupOrig]
  cases hf : header.reverse.find? (fun x => pyLower x == k) with
  | some v => rfl
  | none =>
    exfalso
    have := List.find?_eq_none.mp hf c (List.mem_reverse.mpr hc)
    simp [hk] at this

/-! ## Claim theorems -/

/-- C5: for every header and every canonical attribute of the alias table,
the Column Mapper records the first alias in the attribute's declared alias
list that matches a header column case-insensitively and stops there; if no
alias matches, the attribute is absent from the mapping (`lookup` is
`none`, since `List.findSome?` returns `none`), and no error is raised. -/
theorem map_columns_first_alias_wins (header : List String) (std : String)
    (aliases : List String) (hmem : (std, aliases) ∈ COLUMN_MAPPINGS) :
    (mapColumns header).lookup std = aliases.findSome? (fun a => lookupOrig header a) :=
  lookup_mapColumnsOver COLUMN_MAPPINGS header std aliases (by decide) hmem

/-- Witness for C5 at a concrete header and attribute. -/
theorem map_columns_first_alias_wins_witness :
    (("customer_id", ["uniqueid", "sk_id_curr", "customer_id", "client_id"])
        ∈ COLUMN_MAPPINGS) ∧
    (mapColumns ["SK_ID_CURR", "AMT_CREDIT"]).lookup "customer_id" =
      ["uniqueid", "sk_id_curr", "customer_id", "client_id"].findSome?
        (fun a => lookupOrig ["SK_ID_CURR", "AMT_CREDIT"] a) :=
  ⟨by decide,
   map_columns_first_alias_wins ["SK_ID_CURR", "AMT_CREDIT"] "customer_id"
     ["uniqueid", "sk_id_curr", "customer_id", "client_id"] (by decide)⟩

/-- C10: the produced ColumnMapping need not be injective: any header
containing a column that lowercases to `uniqueid` or to `sk_id_curr` maps
the two distinct canonical attributes `loan_id` and `customer_id` to the
same raw column (both alias lists begin `uniqueid, sk_id_curr`). -/
theorem mapping_values_may_collide (header : List String) (c : String)
    (hc : c ∈ header)
    (hl : pyLower c = "uniqueid" ∨ pyLower c = "sk_id_curr") :
    (mapColumns header).lookup "loan_id" = (mapColumns header).lookup "customer_id" ∧
    ((mapColumns header).lookup "loan_id").isSome = true := by
  have h1 := lookup_mapColumnsOver COLUMN_MAPPINGS header "loan_id"
    ["uniqueid", "sk_id_curr", "loan_id", "application_id", "contract_id"]
    (by decide) (by decide)
  have h2 := lookup_mapColumnsOver COLUMN_MAPPINGS header "customer_id"
    ["uniqueid", "sk_id_curr", "customer_id", "client_id"] (by decide) (by decide)
  simp only [mapColumns]
  rcases hl with hk | hk
  · have hu := lookupOrig_isSome_of_mem header "uniqueid" c hc hk
    rcases Option.isSome_iff_exists.mp hu with ⟨v, hv⟩
    constructor
    · rw [h1, h2]; simp [List.findSome?_cons, hv]
    · rw [h1]; simp [List.findSome?_cons, hv]
  · have hs := lookupOrig_isSome_of_mem header "sk_id_curr" c hc hk
    rcases Option.isSome_iff_exists.mp hs with ⟨v, hv⟩
    cases hu : lookupOrig header "uniqueid" with
    | some w =>
      constructor
      · rw [h1, h2]; simp [List.findSome?_cons, hu]
      · rw [h1]; simp [List.findSome?_cons, hu]
    | none =>
      constructor
      · rw [h1, h2]; simp [List.findSome?_cons, hu, hv]
      · rw [h1]; simp [List.findSome?_cons, hu, hv]

/-- Witness for C10 at the concrete header `["UniqueID"]`. -/
theorem mapping_values_may_collide_witness :
    ("UniqueID" ∈ (["UniqueID"] : List String)) ∧
    (pyLower "UniqueID" = "uniqueid" ∨ pyLower "UniqueID" = "sk_id_curr") ∧
    ((mapColumns ["UniqueID"]).lookup "loan_id" =
        (mapColumns ["UniqueID"]).lookup "customer_id" ∧
      ((mapColumns ["UniqueID"]).lookup "loan_id").isSome = true) :=
  ⟨by decide, Or.inl (by decide),
   mapping_values_may_collide ["UniqueID"] "UniqueID" (by decide) (Or.inl (by decide))⟩

/-- C3: for each canonical date attribute present in the mapping, the
synthesized projection contains its expression, and that expression is the
day-offset form exactly when the mapped raw column name contains the
substring `days` case-insensitively, and otherwise the soft
`safe.parse_date` form with the fixed pattern `%d-%m-%y`. -/
theorem date_attribute_projection_two_forms (m : List (String × String)) (attr c : String)
    (hattr : attr = "application_date" ∨ attr = "date_of_birth")
    (hc : m.lookup attr = some c) :
    exprFor attr c ∈ selectCols m ∧
    exprFor attr c =
      (if containsSub "days".data (pyLower c).data then
        "    date_add(current_date(), interval cast(" ++ c ++ " as int64) day) as " ++ attr
      else
        "    safe.parse_date(\x27%d-%m-%y\x27, cast(" ++ c ++ " as string)) as " ++ attr) := by
  constructor
  · simp only [selectCols]
    apply List.mem_filterMap.mpr
    refine ⟨attr, ?_, ?_⟩
    · rcases hattr with h | h <;> subst h <;> decide
    · rw [hc]
      rfl
  · rcases hattr with h | h <;> subst h <;> rfl

/-- Witness for C3 at a mapping sending `date_of_birth` to `DAYS_BIRTH`. -/
theorem date_attribute_projection_two_forms_witness :
    (("date_of_birth" : String) = "application_date" ∨
      ("date_of_birth" : String) = "date_of_birth") ∧
    ([("date_of_birth", "DAYS_BIRTH")].lookup "date_of_birth" = some "DAYS_BIRTH") ∧
    (exprFor "date_of_birth" "DAYS_BIRTH" ∈ selectCols [("date_of_birth", "DAYS_BIRTH")] ∧
     exprFor "date_of_birth" "DAYS_BIRTH" =
       (if containsSub "days".data (pyLower "DAYS_BIRTH").data then
         "    date_add(current_date(), interval cast(" ++ "DAYS_BIRTH" ++
           " as int64) day) as " ++ "date_of_birth"
       else
         "    safe.parse_date(\x27%d-%m-%y\x27, cast(" ++ "DAYS_BIRTH" ++
           " as string)) as " ++ "date_of_birth")) :=
  ⟨Or.inr rfl, by decide,
   date_attribute_projection_two_forms [("date_of_birth", "DAYS_BIRTH")]
     "date_of_birth" "DAYS_BIRTH" (Or.inr rfl) (by decide)⟩

/-- C6: a canonical attribute contributes a projection expression exactly
when it is present in the mapping, and the projection list has exactly one
entry per mapped attribute of the fixed order — nothing (in particular no
null placeholder) is emitted for absent attributes. -/
theorem projection_exactly_mapped_attributes (m : List (String × String)) (attr : String)
    (hattr : attr ∈ PROJECTION_ORDER) :
    ((m.lookup attr).isSome = true ↔
      ∃ c, m.lookup attr = some c ∧ exprFor attr c ∈ selectCols m) ∧
    (selectCols m).length =
      (PROJECTION_ORDER.filter (fun a => (m.lookup a).isSome)).length := by
  constructor
  · constructor
    · intro h
      rcases Option.isSome_iff_exists.mp h with ⟨c, hc⟩
      refine ⟨c, hc, ?_⟩
      simp only [selectCols]
      exact List.mem_filterMap.mpr ⟨attr, hattr, by rw [hc]; rfl⟩
    · rintro ⟨c, hc, -⟩
      rw [hc]; rfl
  · have hlen := length_filterMap_eq_length_filter
      (fun attr => (m.lookup attr).map (fun col => exprFor attr col)) PROJECTION_ORDER
    have hps : ∀ a, ((m.lookup a).map (fun col => exprFor a col)).isSome = (m.lookup a).isSome :=
      fun a => by cases m.lookup a <;> rfl
    simp only [selectCols, hlen, hps]

/-- Witness for C6 at a one-entry mapping. -/
theorem projection_exactly_mapped_attributes_witness :
    ("loan_amount" ∈ PROJECTION_ORDER) ∧
    ((([("loan_amount", "AMT_CREDIT")] : List (String × String)).lookup "loan_amount").isSome
        = true ↔
      ∃ c, ([("loan_amount", "AMT_CREDIT")] : List (String × String)).lookup "loan_amount"
            = some c ∧
        exprFor "loan_amount" c ∈ selectCols [("loan_amount", "AMT_CREDIT")]) ∧
    (selectCols [("loan_amount", "AMT_CREDIT")]).length =
      (PROJECTION_ORDER.filter
        (fun a => (([("loan_amount", "AMT_CREDIT")] : List (String × String)).lookup a).isSome)).length :=
  ⟨by decide,
   (projection_exactly_mapped_attributes [("loan_amount", "AMT_CREDIT")] "loan_amount"
     (by decide)).1,
   (projection_exactly_mapped_attributes [("loan_amount", "AMT_CREDIT")] "loan_amount"
     (by decide)).2⟩

/-- C7: schema detection lowers the header and checks the signature columns
in fixed priority order: `sk_id_curr` yields `home_credit`; otherwise the
vehicle-loan signature (`uniqueid` together with `disbursaldate`) yields
`vehicle_loan`; otherwise the result is `generic`. -/
theorem detect_dataset_type_signature_priority (header : List String) :
    ((header.map pyLower).contains "sk_id_curr" = true →
      detect_dataset_type header = "home_credit") ∧
    ((header.map pyLower).contains "sk_id_curr" = false →
      (header.map pyLower).contains "uniqueid" = true →
      (header.map pyLower).contains "disbursaldate" = true →
      detect_dataset_type header = "vehicle_loan") ∧
    ((header.map pyLower).contains "sk_id_curr" = false →
      ((header.map pyLower).contains "uniqueid" = false ∨
        (header.map pyLower).contains "disbursaldate" = false) →
      detect_dataset_type header = "generic") := by
  refine ⟨?_, ?_, ?_⟩
  · intro h1
    simp only [detect_dataset_type]
    rw [h1]
    simp
  · intro h1 h2 h3
    simp only [detect_dataset_type]
    rw [h1, h2, h3]
    simp
  · intro h1 h2
    simp only [detect_dataset_type]
    rw [h1]
    rcases h2 with h2 | h2 <;> rw [h2] <;> simp

/-- Witness for C7 at the vehicle-loan signature header. -/
theorem detect_dataset_type_signature_priority_witness :
    ((["UniqueID", "DisbursalDate"].map pyLower).contains "sk_id_curr" = false) ∧
    ((["UniqueID", "DisbursalDate"].map pyLower).contains "uniqueid" = true) ∧
    ((["UniqueID", "DisbursalDate"].map pyLower).contains "disbursaldate" = true) ∧
    detect_dataset_type ["UniqueID", "DisbursalDate"] = "vehicle_loan" :=
  ⟨by decide, by decide, by decide,
   (detect_dataset_type_signature_priority ["UniqueID", "DisbursalDate"]).2.1
     (by decide) (by decide) (by decide)⟩

/-- C1 (counterexample): on the demo header the Column Mapper also records
`loan_id` (mapped to `SK_ID_CURR`, an alias of both identifier attributes),
so the mapping has five entries — not only the four claimed — and the
synthesized query projects five columns, not four. -/
theorem home_credit_demo_header_refutes_four_columns :
    (mapColumns ["SK_ID_CURR", "AMT_CREDIT", "DAYS_BIRTH", "TARGET"]).lookup "loan_id"
        = some "SK_ID_CURR" ∧
    (mapColumns ["SK_ID_CURR", "AMT_CREDIT", "DAYS_BIRTH", "TARGET"]).length = 5 ∧
    (selectCols (mapColumns ["SK_ID_CURR", "AMT_CREDIT", "DAYS_BIRTH", "TARGET"])).length
        ≠ 4 := by
  decide

/-- C1 (amended): for the demo header the adapter detects `home_credit`;
the mapping consists of exactly the five entries loan_id and customer_id
to SK_ID_CURR, loan_amount to AMT_CREDIT, date_of_birth to DAYS_BIRTH and
loan_default to TARGET; and the synthesized query projects exactly these
five columns, with the day-offset date rule applied to `date_of_birth`. -/
theorem home_credit_demo_header_end_to_end :
    detect_dataset_type ["SK_ID_CURR", "AMT_CREDIT", "DAYS_BIRTH", "TARGET"]
        = "home_credit" ∧
    mapColumns ["SK_ID_CURR", "AMT_CREDIT", "DAYS_BIRTH", "TARGET"] =
      [("loan_id", "SK_ID_CURR"), ("customer_id", "SK_ID_CURR"),
       ("loan_amount", "AMT_CREDIT"), ("date_of_birth", "DAYS_BIRTH"),
       ("loan_default", "TARGET")] ∧
    selectCols (mapColumns ["SK_ID_CURR", "AMT_CREDIT", "DAYS_BIRTH", "TARGET"]) =
      ["    cast(SK_ID_CURR as string) as loan_id",
       "    cast(SK_ID_CURR as string) as customer_id",
       "    date_add(current_date(), interval cast(DAYS_BIRTH as int64) day) as date_of_birth",
       "    cast(AMT_CREDIT as numeric) as loan_amount",
       "    cast(TARGET as int64) as loan_default"] := by
  decide

/-- C2 (counterexample): starting from a registry that already holds two
entries with logical name `x`, running the upsert twice with name `x`
skips both times, so the result still holds two entries with that name —
not exactly one as claimed for every prior registry state. -/
theorem raw_sources_upsert_duplicate_counterexample :
    countName (update_raw_sources_config
      (some (update_raw_sources_config
        (some [{ name := "x", project_id := "p", dataset_id := "d", table_id := "x",
                 csv_path := "/usr/local/airflow/data/x.csv" },
               { name := "x", project_id := "p", dataset_id := "d", table_id := "x",
                 csv_path := "/usr/local/airflow/data/x.csv" }])
        "x" "x.csv" "p" "d").1) "x" "x.csv" "p" "d").1 "x" = 2 := by
  decide

/-- C2 (amended): when the prior registry holds at most one entry with the
record's logical name, running the upsert twice with identical inputs
yields exactly one entry with that name; the second run returns the state
unchanged and reports a skip; and whenever the name is already present the
upsert leaves the registry unchanged and reports a skip, not an error. -/
theorem raw_sources_upsert_idempotent (st : List RawSource)
    (sn cn pid did : String) (hdup : countName st sn ≤ 1) :
    countName (update_raw_sources_config
      (some (update_raw_sources_config (some st) sn cn pid did).1) sn cn pid did).1 sn
        = 1 ∧
    (update_raw_sources_config
      (some (update_raw_sources_config (some st) sn cn pid did).1) sn cn pid did).1 =
      (update_raw_sources_config (some st) sn cn pid did).1 ∧
    (update_raw_sources_config
      (some (update_raw_sources_config (some st) sn cn pid did).1) sn cn pid did).2
        = true ∧
    ((st.map (fun s => s.name)).contains sn = true →
      (update_raw_sources_config (some st) sn cn pid did).1 = st ∧
      (update_raw_sources_config (some st) sn cn pid did).2 = true) := by
  by_cases hmem : (st.map (fun s => s.name)).contains sn = true
  · have h1 := upsert_present st sn cn pid did hmem
    have hcnt : countName st sn = 1 := by
      have := (contains_name_iff st sn).mp hmem
      omega
    refine ⟨?_, ?_, ?_, fun _ => ⟨by rw [h1], by rw [h1]⟩⟩
    · simp [h1, hcnt]
    · simp [h1]
    · simp [h1]
  · have hmem' : (st.map (fun s => s.name)).contains sn = false := by
      simpa using hmem
    have hcnt0 : countName st sn = 0 := by
      rcases Nat.eq_zero_or_pos (countName st sn) with h0 | hp
      · exact h0
      · have hc := (contains_name_iff st sn).mpr hp
        rw [hmem'] at hc
        simp at hc
    have h1 := upsert_absent st sn cn pid did hmem'
    have hcnt_app : countName (st ++ [newRawSource sn cn pid did]) sn = 1 := by
      rw [countName_append, hcnt0, countName_singleton_self (newRawSource sn cn pid did) sn rfl]
    have hmem2 : ((st ++ [newRawSource sn cn pid did]).map (fun s => s.name)).contains sn
        = true :=
      (contains_name_iff _ sn).mpr (by rw [hcnt_app]; exact Nat.one_pos)
    have h2 := upsert_present (st ++ [newRawSource sn cn pid did]) sn cn pid did hmem2
    refine ⟨?_, ?_, ?_, fun hcontra => ?_⟩
    · simp [h1, h2, hcnt_app]
    · simp [h1, h2]
    · simp [h1, h2]
    · rw [hmem'] at hcontra
      simp at hcontra

/-- Witness for C2 at the empty prior registry. -/
theorem raw_sources_upsert_idempotent_witness :
    countName [] "application_train_raw" ≤ 1 ∧
    countName (update_raw_sources_config
      (some (update_raw_sources_config (some ([] : List RawSource)) "application_train_raw"
        "application_train.csv" "proj" "ds").1) "application_train_raw"
        "application_train.csv" "proj" "ds").1 "application_train_raw" = 1 :=
  ⟨by decide,
   (raw_sources_upsert_idempotent [] "application_train_raw" "application_train.csv"
     "proj" "ds" (by decide)).1⟩

/-- Updating the table list of a source block leaves its name intact. -/
theorem isRawBlock_addTable (s : SourceBlock) (n : String)
    (h : isRawBlock s = true) : isRawBlock (addTable s n) = true := by
  simp only [addTable]
  split
  · exact h
  · exact h

/-- Filling default coordinates leaves the block's name intact. -/
theorem isRawBlock_fillDefaults (pid did : String) (s : SourceBlock)
    (h : isRawBlock s = true) : isRawBlock (fillDefaults pid did s) = true := h

/-- Updating the table list of a source block leaves `database` intact. -/
theorem database_addTable (s : SourceBlock) (n : String) :
    (addTable s n).database = s.database := by
  simp only [addTable]
  split
  · rfl
  · rfl

/-- Updating the table list of a source block leaves `schema` intact. -/
theorem schema_addTable (s : SourceBlock) (n : String) :
    (addTable s n).schema = s.schema := by
  simp only [addTable]
  split
  · rfl
  · rfl

/-- C4: if the manifest's first `raw` source block already carries a
database value or a schema value, re-running the manifest upsert — with
any project id and dataset id, in particular different ones — leaves those
values unchanged; the upsert fills connection coordinates only when they
are absent. -/
theorem staging_upsert_preserves_manual_coordinates (cfg : StagingConfig)
    (sn pid did smn : String) (s : SourceBlock)
    (hfind : (cfg.sources.getD []).find? isRawBlock = some s) :
    ∃ s2, ((update_staging_yml (some cfg) sn pid did smn).sources.getD []).find? isRawBlock
        = some s2 ∧
      (∀ d, s.database = some d → s2.database = some d) ∧
      (∀ e, s.schema = some e → s2.schema = some e) := by
  refine ⟨addTable (fillDefaults pid did s) sn, ?_, ?_, ?_⟩
  · simp only [update_staging_yml, Option.getD_some]
    rw [hfind]
    simp only [Option.getD_some]
    rw [find?_replaceFirst isRawBlock (fun b => addTable b sn) _
          (fun a ha => isRawBlock_addTable a sn ha),
        find?_replaceFirst isRawBlock (fillDefaults pid did) _
          (fun a ha => isRawBlock_fillDefaults pid did a ha),
        hfind]
    rfl
  · intro d hd
    rw [database_addTable]
    simp [fillDefaults, hd]
  · intro e he
    rw [schema_addTable]
    simp [fillDefaults, he]

/-- Witness for C4: a manifest with manually set coordinates, upserted
with a different project id and dataset id. -/
theorem staging_upsert_preserves_manual_coordinates_witness :
    ((sampleStagingConfig.sources.getD []).find? isRawBlock = some sampleRawBlock) ∧
    (∃ s2, ((update_staging_yml (some sampleStagingConfig)
          "t_raw" "other_project" "other_dataset" "stg_t").sources.getD []).find? isRawBlock
            = some s2 ∧
      (∀ d, sampleRawBlock.database = some d → s2.database = some d) ∧
      (∀ e, sampleRawBlock.schema = some e → s2.schema = some e)) :=
  ⟨by decide,
   staging_upsert_preserves_manual_coordinates sampleStagingConfig
     "t_raw" "other_project" "other_dataset" "stg_t" sampleRawBlock (by decide)⟩

/-- C8 (refutation): the config mergers persist their result by opening
the config file in mode w — truncating it immediately — and then streaming
the YAML dump into it.  In the effect-trace model, the state reached when
the dump does not complete (only the truncation applied) is neither the
original content nor the completed rewrite, so the file mutation is not
all-or-nothing. -/
theorem config_write_not_all_or_nothing :
    ¬ allOrNothing "raw_sources:\n- name: a\n"
        (configWriteOps "raw_sources:\n- name: a\n- name: b\n") := by
  intro h
  exact absurd (h 1) (by decide)

/-- Replacing the single-character pattern `.` is character-wise
substitution. -/
theorem pyReplaceAux_dot (s : List Char) :
    pyReplaceAux '.' [] "_".data s =
      s.map (fun ch => if ch == '.' then '_' else ch) := by
  induction s with
  | nil => simp [pyReplaceAux]
  | cons c cs ih =>
    by_cases h : c = '.'
    · subst h
      have hpre : (['.'] : List Char).isPrefixOf ('.' :: cs) = true := by
        simp [List.isPrefixOf]
      simp [pyReplaceAux, hpre, ih]
    · have hpre : (['.'] : List Char).isPrefixOf (c :: cs) = false := by
        simp [List.isPrefixOf]
        intro hcon
        exact absurd hcon.symm h
      simp [pyReplaceAux, hpre, ih, h]

/-- Form of `pyReplaceAux_dot` stated for `pyReplace` itself. -/
theorem pyReplace_dot (s : List Char) :
    pyReplace ".".data "_".data s =
      s.map (fun ch => if ch == '.' then '_' else ch) := by
  show pyReplaceAux '.' [] "_".data s = _
  exact pyReplaceAux_dot s

/-- C9: on every CSV input with at least a header row, the sanitization
routines output the header with every period character of every column
name replaced by an underscore — nothing else in the column names changes
— followed by the data rows exactly as in the input, in the same order;
`clean_header` and `_sanitize_header` perform the same transformation. -/
theorem header_sanitization_spec (header : List String) (rest : List (List String)) :
    clean_header_rows (header :: rest) =
      some ((header.map (fun col =>
        String.mk (col.data.map (fun ch => if ch == '.' then '_' else ch)))) :: rest) ∧
    sanitize_header_rows (header :: rest) = clean_header_rows (header :: rest) := by
  constructor
  · simp only [clean_header_rows]
    have hrep : ∀ col : String, pyReplace ".".data "_".data col.data =
        col.data.map (fun ch => if ch == '.' then '_' else ch) :=
      fun col => pyReplace_dot col.data
    simp [hrep]
  · rfl
